import Mathlib

/-!
Verification of the retrieval-and-relevance pipeline (web crawler, lexical
similarity scorer, grouper, orchestrator) of the research-topic repository.

Strings are modelled as `List Char`; Python floats are modelled as exact
rationals (`ℚ`); dictionaries keyed by URL are modelled as association
lists in insertion order (CPython 3.7+ dicts preserve insertion order).
Network and HTML parsing are abstracted behind oracles where the claims do
not depend on them; every scoring / filtering / grouping computation is
translated from `src/agents/*.py` statement by statement.
-/

/-- Lowercasing of a text, character by character (models Python `str.lower`
on the ASCII range used by the scoring code). -/
def lowerL (s : List Char) : List Char := s.map Char.toLower

/-- Boolean test that `pat` is an initial segment of `s`. -/
def headMatch : List Char → List Char → Bool
  | [], _ => true
  | _ :: _, [] => false
  | a :: as, b :: bs => a == b && headMatch as bs

/-- Left-to-right non-overlapping occurrence scan, with explicit fuel so the
definition is structurally recursive (fuel is initialised with the haystack
length, which always suffices). -/
def pyCountAux (needle : List Char) : Nat → List Char → Nat
  | 0, _ => 0
  | _ + 1, [] => 0
  | fuel + 1, c :: rest =>
    if headMatch needle (c :: rest) then
      1 + pyCountAux needle fuel ((c :: rest).drop needle.length)
    else
      pyCountAux needle fuel rest

/-- Python `hay.count(needle)`: number of non-overlapping occurrences of
`needle` in `hay`, scanning left to right; `hay.count("")` is `len(hay)+1`. -/
def pyCount (hay needle : List Char) : Nat :=
  if needle = [] then hay.length + 1 else pyCountAux needle hay.length hay

/-- Helper for `pySplit`: accumulates the current word (reversed) while
scanning. -/
def pySplitAux : List Char → List Char → List (List Char)
  | [], acc => if acc.isEmpty then [] else [acc.reverse]
  | c :: cs, acc =>
    if c.isWhitespace then
      if acc.isEmpty then pySplitAux cs [] else acc.reverse :: pySplitAux cs []
    else
      pySplitAux cs (c :: acc)

/-- Python `text.split()`: whitespace-separated words, empty pieces dropped. -/
def pySplit (s : List Char) : List (List Char) := pySplitAux s []

/-- Python regex `\w`: ASCII letters, digits and underscore (the texts the
pipeline scores are treated over this alphabet). -/
def isWordChar (c : Char) : Bool := c.isAlphanum || c == '_'

/-- Helper for `wordRuns`: accumulates the current run (reversed). -/
def wordRunsAux : List Char → List Char → List (List Char)
  | [], acc => if acc.isEmpty then [] else [acc.reverse]
  | c :: cs, acc =>
    if isWordChar c then
      wordRunsAux cs (c :: acc)
    else
      if acc.isEmpty then wordRunsAux cs [] else acc.reverse :: wordRunsAux cs []

/-- Maximal runs of word characters of a text, in order. -/
def wordRuns (s : List Char) : List (List Char) := wordRunsAux s []

/-- Python `re.findall(r'\b\w{n,}\b', s)`: the maximal word-character runs of
length at least `n`, in order of appearance. -/
def reWords (n : Nat) (s : List Char) : List (List Char) :=
  (wordRuns s).filter (fun w => n ≤ w.length)

/-- The text the crawler and the grouper score a page over:
Python `(title + " " + content).lower()`. -/
def pageText (title content : List Char) : List Char :=
  lowerL (title ++ ' ' :: content)

/-- Crawl-time relevance gate, translated from
`WebCrawlerAgent._calculate_keyword_relevance` (web_crawler_agent.py:316-333):
with no keywords every page scores `1.0`; otherwise each keyword contributes
`title.lower().count(kw) * 2` plus `(title + " " + content).lower().count(kw)`
and the total is divided by `len(keywords) * 10` and capped at `1.0`. -/
def calculate_keyword_relevance (title content : List Char)
    (keywords : List (List Char)) : ℚ :=
  if keywords = [] then 1
  else
    let text := pageText title content
    let totalScore : ℚ := keywords.foldl
      (fun acc kw =>
        acc + ((pyCount (lowerL title) (lowerL kw) * 2
                + pyCount text (lowerL kw) : Nat) : ℚ)) 0
    let maxPossible : ℚ := (keywords.length : ℚ) * 10
    if 0 < maxPossible then min (totalScore / maxPossible) 1 else 0

/-- Splits a text at the first occurrence of `sep`, returning the pieces
before and after it, or `none` when `sep` does not occur. -/
def findSplit (sep : List Char) : List Char → Option (List Char × List Char)
  | [] => if sep = [] then some ([], []) else none
  | c :: rest =>
    if headMatch sep (c :: rest) then some ([], (c :: rest).drop sep.length)
    else
      match findSplit sep rest with
      | some (pre, post) => some (c :: pre, post)
      | none => none

/-- URL well-formedness check of `WebCrawlerAgent._is_valid_url`
(web_crawler_agent.py:242-248): `urlparse(url)` must yield a non-empty
scheme and a non-empty netloc, modelled as `scheme://host...` with both the
part before `://` and the host part after it (up to the next `/`) non-empty. -/
def is_valid_url (url : List Char) : Bool :=
  match findSplit (':' :: '/' :: '/' :: []) url with
  | some (scheme, rest) =>
    !scheme.isEmpty && !(rest.takeWhile (fun c => !(c == '/'))).isEmpty
  | none => false

/-- A fetched and parsed page, as the crawler sees it after
`_fetch_with_retry`, `_extract_title`, `_extract_content` and
`_extract_links`: a title, a body text and the same-domain links. The
network, the HTML parser and the extraction pipeline are abstracted into an
oracle `List Char → Option FetchedPage`; `none` covers both a fetch that
gave up and a per-node extraction exception (both make `_crawl_recursive`
skip the node). -/
structure FetchedPage where
  title : List Char
  content : List Char
  links : List (List Char)
deriving DecidableEq

/-- One entry of `WebCrawlerAgent.results` (web_crawler_agent.py:122-127). -/
structure PageRecord where
  title : List Char
  content : List Char
  relevance : ℚ
  depth : Nat
deriving DecidableEq

/-- The crawler's mutable state: `visited_urls` and `results`
(web_crawler_agent.py:21-22); both association structures are kept as lists
in (reverse) insertion order. -/
structure CrawlState where
  visited : List (List Char)
  results : List (List Char × PageRecord)
deriving DecidableEq

/-- Depth-first crawl, translated from `WebCrawlerAgent._crawl_recursive`
(web_crawler_agent.py:93-136). The fuel argument makes the recursion
structural; it is initialised with `maxDepth + 1`, which the depth guard
makes sufficient, so the `0` case is never reached from `crawler_execute`.
Guards, visited marking, the relevance gate, retention and the
depth-bounded link recursion follow the source line by line. -/
def crawl_recursive (web : List Char → Option FetchedPage)
    (maxDepth maxPages : Nat) (keywords : List (List Char)) :
    Nat → List Char → Nat → CrawlState → CrawlState
  | 0, _, _, st => st
  | fuel + 1, url, depth, st =>
    if maxDepth < depth ∨ maxPages ≤ st.visited.length then st
    else if url ∈ st.visited ∨ is_valid_url url = false then st
    else
      let st1 : CrawlState := ⟨url :: st.visited, st.results⟩
      match web url with
      | none => st1
      | some page =>
        let rel := calculate_keyword_relevance page.title page.content keywords
        let st2 : CrawlState :=
          if 0 < rel then
            ⟨st1.visited, (url, ⟨page.title, page.content, rel, depth⟩) :: st1.results⟩
          else st1
        if depth < maxDepth then
          page.links.foldl
            (fun s link =>
              if s.visited.length < maxPages then
                crawl_recursive web maxDepth maxPages keywords fuel link (depth + 1) s
              else s)
            st2
        else st2

/-- `WebCrawlerAgent.execute` (web_crawler_agent.py:61-91): crawls every
seed URL in order, starting from a fresh state. -/
def crawler_execute (web : List Char → Option FetchedPage)
    (maxDepth maxPages : Nat) (keywords : List (List Char))
    (urls : List (List Char)) : CrawlState :=
  urls.foldl
    (fun st url => crawl_recursive web maxDepth maxPages keywords (maxDepth + 1) url 0 st)
    ⟨[], []⟩

/-- Outcome of one `session.get` + `raise_for_status` attempt, as classified
by the `except` arms of `_fetch_with_retry` (web_crawler_agent.py:141-240).
`httpNoStatus` is an `HTTPError` whose `e.response` is falsy; `otherExc` is
any other exception, caught by the final generic handler. -/
inductive AttemptOutcome where
  | ok
  | httpNoStatus
  | httpStatus (code : Nat)
  | sslError
  | timedOut
  | connError
  | otherExc
deriving DecidableEq

/-- Result of `_fetch_with_retry`: the index of the successful attempt (the
response), or `none` for every give-up path, together with the sequence of
backoff sleeps performed (in seconds). -/
structure FetchResult where
  response : Option Nat
  sleeps : List ℚ
deriving DecidableEq

/-- The retry loop of `_fetch_with_retry` (web_crawler_agent.py:143-240),
with the per-attempt network behaviour abstracted into `oracle`. `remaining`
counts the loop iterations left (`maxRetries - attempt`); each arm mirrors
one `except` branch: 403 rotates and sleeps `2*(attempt+1)` while attempts
remain, 429 always sleeps `5*(attempt+1)` and continues, 500/502/503/504
sleep `3*(attempt+1)` while attempts remain, SSL/timeout sleep a fixed 2s,
connection errors a fixed 3s, other exceptions a fixed 2s, and any other
HTTP status returns `None` at once with no sleep. -/
def fetch_attempts (oracle : Nat → AttemptOutcome) (maxRetries : Nat) :
    Nat → Nat → List ℚ → FetchResult
  | 0, _, sleeps => ⟨none, sleeps⟩
  | remaining + 1, attempt, sleeps =>
    match oracle attempt with
    | .ok => ⟨some attempt, sleeps⟩
    | .httpNoStatus =>
      if attempt < maxRetries - 1 then
        fetch_attempts oracle maxRetries remaining (attempt + 1)
          (sleeps ++ [((2 * (attempt + 1) : Nat) : ℚ)])
      else ⟨none, sleeps⟩
    | .httpStatus code =>
      if code = 403 then
        if attempt < maxRetries - 1 then
          fetch_attempts oracle maxRetries remaining (attempt + 1)
            (sleeps ++ [((2 * (attempt + 1) : Nat) : ℚ)])
        else ⟨none, sleeps⟩
      else if code = 429 then
        fetch_attempts oracle maxRetries remaining (attempt + 1)
          (sleeps ++ [((5 * (attempt + 1) : Nat) : ℚ)])
      else if code = 500 ∨ code = 502 ∨ code = 503 ∨ code = 504 then
        if attempt < maxRetries - 1 then
          fetch_attempts oracle maxRetries remaining (attempt + 1)
            (sleeps ++ [((3 * (attempt + 1) : Nat) : ℚ)])
        else ⟨none, sleeps⟩
      else ⟨none, sleeps⟩
    | .sslError =>
      if attempt < maxRetries - 1 then
        fetch_attempts oracle maxRetries remaining (attempt + 1) (sleeps ++ [2])
      else ⟨none, sleeps⟩
    | .timedOut =>
      if attempt < maxRetries - 1 then
        fetch_attempts oracle maxRetries remaining (attempt + 1) (sleeps ++ [2])
      else ⟨none, sleeps⟩
    | .connError =>
      if attempt < maxRetries - 1 then
        fetch_attempts oracle maxRetries remaining (attempt + 1) (sleeps ++ [3])
      else ⟨none, sleeps⟩
    | .otherExc =>
      if attempt < maxRetries - 1 then
        fetch_attempts oracle maxRetries remaining (attempt + 1) (sleeps ++ [2])
      else ⟨none, sleeps⟩

/-- `WebCrawlerAgent._fetch_with_retry` (web_crawler_agent.py:141-240):
runs up to `maxRetries` attempts and returns `None` when the loop ends
without a successful response. -/
def fetch_with_retry (oracle : Nat → AttemptOutcome) (maxRetries : Nat) :
    FetchResult :=
  fetch_attempts oracle maxRetries maxRetries 0 []

/-- The `remove_keywords` denylist of `WebCrawlerAgent._extract_content`
(web_crawler_agent.py:269-276), element for element. In the source the
comma after `'box'` is missing, so Python's implicit string concatenation
fuses `'box'` and `'popup'` into the single entry `'boxpopup'`. -/
def remove_keywords : List (List Char) :=
  ["ad".toList, "ads".toList, "advert".toList, "sponsor".toList,
   "promotion".toList, "ad-wrapper".toList, "ad-container".toList,
   "ad-banner".toList, "ad-box".toList, "ad-space".toList, "ad-unit".toList,
   "ad-slot".toList, "ad-placement".toList, "ad-placement-wrapper".toList,
   "ad-placement-container".toList, "ad-placement-banner".toList,
   "ad-placement-box".toList, "ad-placement-space".toList,
   "ad-placement-unit".toList,
   "sidebar".toList, "related".toList, "recommend".toList, "widget".toList,
   "module".toList, "boxpopup".toList,
   "overlay".toList, "cookie".toList, "banner".toList,
   "comment".toList, "comments".toList, "reply".toList, "replies".toList,
   "share".toList, "social".toList, "sns".toList, "facebook".toList,
   "twitter".toList, "instagram".toList, "youtube".toList, "linkedin".toList]

/-- The predicate `_extract_content` removes elements by
(web_crawler_agent.py:278-282): some denylist entry occurs in the
lowercased class or id attribute value. -/
def matches_denylist (attr : List Char) : Bool :=
  remove_keywords.any (fun kw => 0 < pyCount (lowerL attr) kw)

/-- A body-level HTML element for the extraction model: its class attribute
value, its id attribute value and its text. -/
structure HtmlElem where
  className : List Char
  idName : List Char
  text : List Char
deriving DecidableEq

/-- An element is decomposed by the class/id pass of `_extract_content` when
its class or id matches the denylist. -/
def elem_removed (e : HtmlElem) : Bool :=
  matches_denylist e.className || matches_denylist e.idName

/-- The body-text fallback of `_extract_content` (web_crawler_agent.py:
294-297) over a flat sequence of body elements: drop decomposed elements,
join the remaining texts with a single space (`get_text(separator=' ')`)
and truncate to 5000 characters. -/
def extract_body_text (elems : List HtmlElem) : List Char :=
  (List.intercalate [' ']
    ((elems.filter (fun e => !(elem_removed e))).map (fun e => e.text))).take 5000

/-- Token list of `SimilarityAgent._calculate_keyword_similarity`
(similarity_agent.py:107-115): every lowercased keyword followed by the
`\b\w{2,}\b` words of its lowercased description, deduplicated. The source
deduplicates through `set()`, whose iteration order is arbitrary; `dedup`
picks the first-occurrence order, and the determinism theorem shows the
scores do not depend on this choice. -/
def build_query_tokens (query_keywords : List (List Char × List Char)) :
    List (List Char) :=
  (query_keywords.foldl
    (fun acc q => acc ++ (lowerL q.1 :: reWords 2 (lowerL q.2))) []).dedup

/-- Python `max(len(doc_text.split()), 1)` (similarity_agent.py:129). -/
def word_count_m (text : List Char) : Nat := max (pySplit text).length 1

/-- Per-page lexical score of `_calculate_keyword_similarity`
(similarity_agent.py:117-138) for a given token list: fold over the tokens
accumulating `match_count` and `weighted_score`, then combine coverage and
the clamped weighted score as `coverage*0.6 + min(weighted, 1.0)*0.4`;
with no tokens the score is `0.0`. -/
def sim_score_tokens (tokens : List (List Char)) (title content : List Char) : ℚ :=
  let text := pageText title content
  let acc := tokens.foldl
    (fun (p : Nat × ℚ) kw =>
      let c := pyCount text kw
      if 0 < c then
        (p.1 + 1, p.2 + ((c : ℚ) / ((word_count_m text : Nat) : ℚ)) * 100)
      else p)
    (0, 0)
  if tokens = [] then 0
  else ((acc.1 : ℚ) / ((tokens.length : Nat) : ℚ)) * (6 / 10) + min acc.2 1 * (4 / 10)

/-- Scores every crawled page against a fixed token list, in crawl order. -/
def score_all_with (tokens : List (List Char))
    (crawled : List (List Char × PageRecord)) : List (List Char × ℚ) :=
  crawled.map (fun e => (e.1, sim_score_tokens tokens e.2.title e.2.content))

/-- `SimilarityAgent._calculate_keyword_similarity`
(similarity_agent.py:101-140): build the token list once, then score every
page. -/
def calculate_keyword_similarity (crawled : List (List Char × PageRecord))
    (query_keywords : List (List Char × List Char)) : List (List Char × ℚ) :=
  score_all_with (build_query_tokens query_keywords) crawled

/-- One entry of the filtered mapping: the page data plus the attached
`similarity_score` (similarity_agent.py:149-152). -/
structure FilteredEntry where
  url : List Char
  page : PageRecord
  similarity_score : ℚ
deriving DecidableEq

/-- Python `similarity_scores.get(url, 0.0)` (similarity_agent.py:147). -/
def lookup_score (scores : List (List Char × ℚ)) (u : List Char) : ℚ :=
  (scores.lookup u).getD 0

/-- `SimilarityAgent._filter_by_similarity` (similarity_agent.py:142-161):
keep the pages whose score reaches the threshold, then sort by score
descending (Python `sorted(..., reverse=True)` is a stable descending sort,
modelled by a stable merge sort with the reversed comparison). -/
def filter_by_similarity (crawled : List (List Char × PageRecord))
    (scores : List (List Char × ℚ)) (threshold : ℚ) : List FilteredEntry :=
  let kept := crawled.filterMap
    (fun e =>
      if threshold ≤ lookup_score scores e.1 then
        some ⟨e.1, e.2, lookup_score scores e.1⟩
      else none)
  kept.mergeSort (fun a b => decide (b.similarity_score ≤ a.similarity_score))

/-- One item of a group (summarization_agent.py:103-108). -/
structure GroupItem where
  url : List Char
  title : List Char
  content : List Char
  similarity_score : ℚ
deriving DecidableEq

/-- Match score of one page text against one `(keyword, description)` pair
in `SummarizationAgent._group_content` (summarization_agent.py:88-93):
`text.count(keyword.lower())` plus `0.5 * text.count(word)` for every
`\b\w{3,}\b` word of the lowercased description. -/
def group_keyword_score (text : List Char) (keyword description : List Char) : ℚ :=
  (reWords 3 (lowerL description)).foldl
    (fun acc w => acc + ((pyCount text w : Nat) : ℚ) * (1 / 2))
    ((pyCount text (lowerL keyword) : Nat) : ℚ)

/-- The best-keyword fold of `_group_content` (summarization_agent.py:85-97):
starting from `(None, 0)`, a keyword takes over only when its score strictly
exceeds the best so far. -/
def best_keyword_of (text : List Char)
    (query_keywords : List (List Char × List Char)) : Option (List Char) :=
  (query_keywords.foldl
    (fun (p : Option (List Char) × ℚ) q =>
      let s := group_keyword_score text q.1 q.2
      if p.2 < s then (some q.1, s) else p)
    (none, 0)).1

/-- The implicit bucket for pages no keyword matched
(summarization_agent.py:100-101, the literal `"기타"`). -/
def unmatched_key : List Char := "기타".toList

/-- The bucket key a filtered page is assigned to. -/
def assigned_keyword (text : List Char)
    (query_keywords : List (List Char × List Char)) : List Char :=
  (best_keyword_of text query_keywords).getD unmatched_key

/-- Appends an item to its bucket in a `defaultdict(list)` modelled as an
association list in key-insertion order: a new key is appended at the end,
an existing key's list grows at its end. -/
def bucket_add (buckets : List (List Char × List GroupItem)) (key : List Char)
    (item : GroupItem) : List (List Char × List GroupItem) :=
  match buckets with
  | [] => [(key, [item])]
  | (k, items) :: rest =>
    if k = key then (k, items ++ [item]) :: rest
    else (k, items) :: bucket_add rest key item

/-- A finished group (summarization_agent.py:123-128). -/
structure KeywordGroup where
  keyword : List Char
  description : List Char
  items : List GroupItem
  item_count : Nat
deriving DecidableEq

/-- Python's description lookup loop (summarization_agent.py:117-121): the
description of the first query keyword equal to the group key, else `""`. -/
def lookup_description (query_keywords : List (List Char × List Char))
    (k : List Char) : List Char :=
  match query_keywords.find? (fun q => q.1 == k) with
  | some q => q.2
  | none => []

/-- `SummarizationAgent._group_content` (summarization_agent.py:74-133):
assign every filtered page to the bucket of its best keyword (or the
unmatched bucket), sort every bucket's items by similarity descending, and
sort the groups by item count descending. -/
def group_content (filtered : List FilteredEntry)
    (query_keywords : List (List Char × List Char)) : List KeywordGroup :=
  let buckets := filtered.foldl
    (fun b e =>
      let text := pageText e.page.title e.page.content
      bucket_add b (assigned_keyword text query_keywords)
        ⟨e.url, e.page.title, e.page.content, e.similarity_score⟩)
    []
  let groups := buckets.map
    (fun bk =>
      let sortedItems :=
        bk.2.mergeSort (fun a b => decide (b.similarity_score ≤ a.similarity_score))
      KeywordGroup.mk bk.1 (lookup_description query_keywords bk.1) sortedItems
        sortedItems.length)
  groups.mergeSort (fun a b => decide (b.item_count ≤ a.item_count))

/-- Outcome of `OrchestratorAgent.execute`: a success carrying the groups,
or a failure carrying the error message. -/
inductive PipelineResult where
  | ok (groups : List KeywordGroup)
  | err (message : List Char)
deriving DecidableEq

/-- Whether a pipeline outcome is a success result. -/
def PipelineResult.isOk : PipelineResult → Bool
  | .ok _ => true
  | .err _ => false

/-- The control flow of `OrchestratorAgent.execute`
(orchestrator_agent.py:46-174) over the stages' pure decision logic. The
crawler stage's network-dependent result mapping is the parameter `crawled`
(`WebCrawlerAgent.execute` always returns `success: True` with it, so the
crawl-failure arm at orchestrator_agent.py:91-93 is dead). The similarity
stage fails exactly on an empty crawled mapping (similarity_agent.py:51-52),
the summarization stage fails exactly on an empty filtered mapping
(summarization_agent.py:53-54), and the report stage always succeeds
(report_agent.py:48-55). -/
def orchestrator_execute (urls : List (List Char))
    (query_keywords : List (List Char × List Char))
    (crawled : List (List Char × PageRecord)) (threshold : ℚ) : PipelineResult :=
  if urls = [] then .err "No URLs provided".toList
  else if query_keywords = [] then .err "No keywords provided".toList
  else if crawled = [] then .err "Similarity analysis failed".toList
  else
    let scores := calculate_keyword_similarity crawled query_keywords
    let filtered := filter_by_similarity crawled scores threshold
    if filtered = [] then .err "Summarization failed".toList
    else .ok (group_content filtered query_keywords)

/-! ### Shared fold lemmas -/

/-- A left fold that only adds contributions is the sum of the mapped list. -/
lemma foldl_add_map {α : Type} (g : α → ℚ) :
    ∀ (l : List α) (a : ℚ), l.foldl (fun acc x => acc + g x) a = a + (l.map g).sum := by
  intro l
  induction l with
  | nil => intro a; simp
  | cons x t ih => intro a; simp [List.foldl_cons, ih, add_assoc]

/-- A left fold that only appends pieces is the flat map of the list. -/
lemma foldl_append_map {α β : Type} (f : α → List β) :
    ∀ (l : List α) (acc : List β),
      l.foldl (fun a x => a ++ f x) acc = acc ++ l.flatMap f := by
  intro l
  induction l with
  | nil => intro acc; simp
  | cons x t ih => intro acc; simp [List.foldl_cons, ih]

/-- A predicate preserved by every step of a left fold holds of its result. -/
lemma foldl_preserve {α σ : Type} (P : σ → Prop) (f : σ → α → σ)
    (hf : ∀ s a, P s → P (f s a)) :
    ∀ (l : List α) (s : σ), P s → P (l.foldl f s) := by
  intro l
  induction l with
  | nil => intro s hs; exact hs
  | cons a t ih => intro s hs; exact ih _ (hf s a hs)

/-! ### C2: the crawl-time relevance gate -/

/-- Gate score as the claim words it ("modelled from the spec", the
refinement side of C2): title occurrences weighted exactly 2× relative to
body occurrences, i.e. each keyword contributes
`2 * count(kw, title) + count(kw, body)`. -/
def claimed_gate_relevance (title content : List Char)
    (keywords : List (List Char)) : ℚ :=
  if keywords = [] then 1
  else
    min
      (((keywords.map fun kw =>
          ((pyCount (lowerL title) (lowerL kw) * 2
            + pyCount (lowerL content) (lowerL kw) : Nat) : ℚ)).sum)
        / ((keywords.length : ℚ) * 10))
      1

/-- C2 (amended): for every page and keyword list the gate score is the sum
over keywords of `2 * count(kw, lower(title)) + count(kw, lower(title ++ " "
++ content))` — so a title occurrence effectively counts three times
relative to a body occurrence, not twice — divided by `|keywords| * 10` and
capped at `1.0`; with no keywords the score is exactly `1.0`. -/
theorem gate_relevance_characterization (title content : List Char)
    (keywords : List (List Char)) :
    calculate_keyword_relevance title content keywords
      = if keywords = [] then 1
        else
          min
            (((keywords.map fun kw =>
                ((pyCount (lowerL title) (lowerL kw) * 2
                  + pyCount (pageText title content) (lowerL kw) : Nat) : ℚ)).sum)
              / ((keywords.length : ℚ) * 10))
            1 := by
  unfold calculate_keyword_relevance
  by_cases h : keywords = []
  · simp [h]
  · simp only [if_neg h]
    rw [foldl_add_map, zero_add]
    have hlen : 0 < keywords.length := List.length_pos.mpr h
    have hpos : (0 : ℚ) < (keywords.length : ℚ) * 10 := by positivity
    rw [if_pos hpos]

/-- C2 (counterexample): on the page with title `"ai"`, empty body and the
single keyword `"ai"`, the code scores `3/10` (the keyword is counted once
in the title with weight 2 and once more in the concatenated text), while
the claimed formula gives `2/10`. -/
theorem gate_relevance_counterexample :
    calculate_keyword_relevance "ai".toList [] ["ai".toList]
      ≠ claimed_gate_relevance "ai".toList [] ["ai".toList] := by
  have h1 : pyCount (lowerL "ai".toList) (lowerL "ai".toList) = 1 := by decide
  have h2 : pyCount (pageText "ai".toList []) (lowerL "ai".toList) = 1 := by decide
  have h3 : pyCount (lowerL ([] : List Char)) (lowerL "ai".toList) = 0 := by decide
  rw [gate_relevance_characterization]
  unfold claimed_gate_relevance
  simp only [List.map_cons, List.map_nil, List.sum_cons, List.sum_nil, h1, h2, h3]
  norm_num

/-! ### C3: the content-extraction denylist -/

/-- C3 (code evaluated at the failing input): because the missing comma at
web_crawler_agent.py:272 fuses `'box'` and `'popup'` into the single
denylist entry `'boxpopup'`, an element whose class is exactly `"popup"` is
not matched by the removal predicate, and its text survives into the
extracted body text, while a popup-family sibling such as `"overlay"` is
still removed. -/
theorem popup_elements_survive :
    matches_denylist "popup".toList = false
    ∧ matches_denylist "boxpopup".toList = true
    ∧ matches_denylist "overlay".toList = true
    ∧ extract_body_text
        [⟨"popup".toList, [], "POPUP TEXT".toList⟩,
         ⟨"overlay".toList, [], "COOKIE BANNER".toList⟩,
         ⟨[], [], "MAIN".toList⟩]
      = "POPUP TEXT MAIN".toList := by decide

/-! ### C10: empty query keyword list -/

/-- Looking any URL up in an all-zero score mapping yields `0.0`. -/
lemma lookup_score_map_zero (l : List (List Char × PageRecord)) (u : List Char) :
    lookup_score (l.map fun e => (e.1, (0 : ℚ))) u = 0 := by
  induction l with
  | nil => rfl
  | cons e t ih =>
    unfold lookup_score at ih ⊢
    rw [List.map_cons, List.lookup_cons]
    cases h : u == e.1 <;> simp [h, ih]

/-- C10: with an empty query keyword list the token list is empty, every
page scores exactly `0.0` (no error), and for any positive threshold the
filtered output is empty. -/
theorem scorer_empty_query (crawled : List (List Char × PageRecord))
    (threshold : ℚ) (h : 0 < threshold) :
    calculate_keyword_similarity crawled [] = crawled.map (fun e => (e.1, (0 : ℚ)))
    ∧ filter_by_similarity crawled (calculate_keyword_similarity crawled []) threshold
        = [] := by
  have htok : build_query_tokens [] = [] := rfl
  have hscore : calculate_keyword_similarity crawled []
      = crawled.map (fun e => (e.1, (0 : ℚ))) := by
    unfold calculate_keyword_similarity score_all_with
    rw [htok]
    simp [sim_score_tokens]
  refine ⟨hscore, ?_⟩
  simp only [filter_by_similarity]
  have hkept : crawled.filterMap
      (fun e =>
        if threshold ≤ lookup_score (calculate_keyword_similarity crawled []) e.1 then
          some (⟨e.1, e.2, lookup_score (calculate_keyword_similarity crawled []) e.1⟩ : FilteredEntry)
        else none) = [] := by
    rw [List.filterMap_eq_nil_iff]
    intro e _
    rw [hscore, lookup_score_map_zero]
    rw [if_neg (by exact not_le.mpr h)]
  rw [hkept, List.mergeSort_nil]


/-- C10 witness: the theorem applied to one concrete page and threshold 1. -/
theorem scorer_empty_query_witness :
    (0 : ℚ) < 1
    ∧ (calculate_keyword_similarity
          [("u".toList, (⟨"t".toList, "c".toList, 1, 0⟩ : PageRecord))] []
        = [("u".toList, (⟨"t".toList, "c".toList, 1, 0⟩ : PageRecord))].map (fun e => (e.1, (0 : ℚ)))
      ∧ filter_by_similarity [("u".toList, (⟨"t".toList, "c".toList, 1, 0⟩ : PageRecord))]
          (calculate_keyword_similarity
            [("u".toList, (⟨"t".toList, "c".toList, 1, 0⟩ : PageRecord))] []) 1
        = []) :=
  ⟨by decide, scorer_empty_query [("u".toList, (⟨"t".toList, "c".toList, 1, 0⟩ : PageRecord))] 1 (by decide)⟩

/-! ### C7: the fetch retry loop -/

/-- If no remaining attempt succeeds, the retry loop returns the classified
give-up value `none` — no branch escapes it. -/
lemma fetch_attempts_response_none (oracle : Nat → AttemptOutcome) (maxRetries : Nat) :
    ∀ (remaining attempt : Nat) (sleeps : List ℚ),
      (∀ k, attempt ≤ k → k < attempt + remaining → oracle k ≠ .ok) →
      (fetch_attempts oracle maxRetries remaining attempt sleeps).response = none := by
  intro remaining
  induction remaining with
  | zero => intro attempt sleeps _; rfl
  | succ n ih =>
    intro attempt sleeps h
    have hne : oracle attempt ≠ .ok := h attempt le_rfl (by omega)
    have hrec : ∀ s2, (fetch_attempts oracle maxRetries n (attempt + 1) s2).response = none :=
      fun s2 => ih (attempt + 1) s2 (fun k hk1 hk2 => h k (by omega) (by omega))
    cases hoc : oracle attempt with
    | ok => exact absurd hoc hne
    | httpNoStatus =>
      simp only [fetch_attempts, hoc]
      split
      · exact hrec _
      · rfl
    | httpStatus code =>
      simp only [fetch_attempts, hoc]
      split
      · split
        · exact hrec _
        · rfl
      · split
        · exact hrec _
        · split
          · split
            · exact hrec _
            · rfl
          · rfl
    | sslError =>
      simp only [fetch_attempts, hoc]
      split
      · exact hrec _
      · rfl
    | timedOut =>
      simp only [fetch_attempts, hoc]
      split
      · exact hrec _
      · rfl
    | connError =>
      simp only [fetch_attempts, hoc]
      split
      · exact hrec _
      · rfl
    | otherExc =>
      simp only [fetch_attempts, hoc]
      split
      · exact hrec _
      · rfl

/-- C7: the fetch layer never lets a failure escape as anything but the
classified give-up value: whenever no attempt succeeds the result is
`none`; and an HTTP error status other than 403, 429 and 5xx (404, say)
gives up immediately on the first attempt, with no retry and no backoff
sleep at all. -/
theorem fetch_gives_up_cleanly (oracle : Nat → AttemptOutcome) (maxRetries : Nat) :
    ((∀ k, k < maxRetries → oracle k ≠ .ok) →
      (fetch_with_retry oracle maxRetries).response = none)
    ∧ ∀ code, oracle 0 = .httpStatus code → code ≠ 403 → code ≠ 429 →
        ¬(500 ≤ code ∧ code ≤ 599) →
        fetch_with_retry oracle maxRetries = ⟨none, []⟩ := by
  constructor
  · intro hfail
    exact fetch_attempts_response_none oracle maxRetries maxRetries 0 []
      (fun k hk1 hk2 => hfail k (by omega))
  · intro code hfirst h403 h429 h5xx
    unfold fetch_with_retry
    cases maxRetries with
    | zero => rfl
    | succ n =>
      simp only [fetch_attempts, hfirst]
      rw [if_neg h403, if_neg h429, if_neg (by omega)]

/-- C7 witness: a server answering 404 on every attempt with `maxRetries = 3`. -/
theorem fetch_gives_up_cleanly_witness :
    (fetch_with_retry (fun _ => .httpStatus 404) 3).response = none
    ∧ fetch_with_retry (fun _ => .httpStatus 404) 3 = ⟨none, []⟩ :=
  ⟨(fetch_gives_up_cleanly (fun _ => .httpStatus 404) 3).1 (fun k _ => by simp),
   (fetch_gives_up_cleanly (fun _ => .httpStatus 404) 3).2 404 rfl
     (by decide) (by decide) (by decide)⟩

/-! ### C1: pipeline outcome on empty results -/

/-- C1 (counterexample): with well-formed inputs (one seed URL, one query
keyword) but a crawler that ran and found nothing (empty result mapping),
the pipeline reports a failure result — `'Similarity analysis failed'` via
the similarity stage's empty-input arm — not a success with empty groups. -/
theorem pipeline_empty_crawl_fails :
    orchestrator_execute ["https://a".toList] [("k".toList, "d".toList)] [] 1
      = .err "Similarity analysis failed".toList
    ∧ (orchestrator_execute ["https://a".toList] [("k".toList, "d".toList)] [] 1).isOk
      = false := by
  constructor
  · rfl
  · rfl

/-- C1 (amended): the pipeline result is a success exactly when the seed
list, the keyword list, the crawler's result mapping and the
threshold-filtered set are all non-empty; an empty crawl mapping or an
empty filtered set yields a failure result, exactly like the structurally
invalid inputs. -/
theorem pipeline_ok_iff (urls : List (List Char))
    (query_keywords : List (List Char × List Char))
    (crawled : List (List Char × PageRecord)) (threshold : ℚ) :
    (orchestrator_execute urls query_keywords crawled threshold).isOk = true ↔
      (urls ≠ [] ∧ query_keywords ≠ [] ∧ crawled ≠ []
       ∧ filter_by_similarity crawled
           (calculate_keyword_similarity crawled query_keywords) threshold ≠ []) := by
  unfold orchestrator_execute
  split_ifs with h1 h2 h3 <;> simp_all [PipelineResult.isOk]
  by_cases h4 : filter_by_similarity crawled
      (calculate_keyword_similarity crawled query_keywords) threshold = [] <;>
    simp [h4, PipelineResult.isOk]

/-- C1 witness: the amended characterization applied to empty inputs. -/
theorem pipeline_ok_iff_witness :
    (orchestrator_execute [] [] [] 1).isOk ≠ true :=
  fun h => ((pipeline_ok_iff [] [] [] 1).mp h).1 rfl

/-! ### C4: crawler bounds -/

/-- The crawl invariant: the visited set never exceeds `maxPages` and every
stored record's depth never exceeds `maxDepth`. -/
def crawl_inv (maxDepth maxPages : Nat) (st : CrawlState) : Prop :=
  st.visited.length ≤ maxPages ∧ ∀ r ∈ st.results, r.2.depth ≤ maxDepth

/-- Every call of the recursive crawl preserves the crawl invariant. -/
lemma crawl_recursive_inv (web : List Char → Option FetchedPage)
    (maxDepth maxPages : Nat) (keywords : List (List Char)) :
    ∀ (fuel : Nat) (url : List Char) (depth : Nat) (st : CrawlState),
      crawl_inv maxDepth maxPages st →
      crawl_inv maxDepth maxPages
        (crawl_recursive web maxDepth maxPages keywords fuel url depth st) := by
  intro fuel
  induction fuel with
  | zero => intro url depth st hst; exact hst
  | succ n ih =>
    intro url depth st hst
    by_cases hstop : maxDepth < depth ∨ maxPages ≤ st.visited.length
    · simpa only [crawl_recursive, if_pos hstop] using hst
    · by_cases hvis : url ∈ st.visited ∨ is_valid_url url = false
      · simpa only [crawl_recursive, if_neg hstop, if_pos hvis] using hst
      · have hlen : st.visited.length < maxPages := by
          rcases not_or.mp hstop with ⟨_, h⟩; omega
        have hdep : depth ≤ maxDepth := by
          rcases not_or.mp hstop with ⟨h, _⟩; omega
        have hst1 : crawl_inv maxDepth maxPages ⟨url :: st.visited, st.results⟩ := by
          refine ⟨?_, hst.2⟩
          simpa using hlen
        cases hweb : web url with
        | none =>
          simpa only [crawl_recursive, if_neg hstop, if_neg hvis, hweb] using hst1
        | some page =>
          simp only [crawl_recursive, if_neg hstop, if_neg hvis, hweb]
          set rel := calculate_keyword_relevance page.title page.content keywords with hrel
          have hst2 : crawl_inv maxDepth maxPages
              (if 0 < rel then
                (⟨url :: st.visited,
                  (url, ⟨page.title, page.content, rel, depth⟩) :: st.results⟩ : CrawlState)
               else ⟨url :: st.visited, st.results⟩) := by
            split
            · refine ⟨by simpa using hlen, ?_⟩
              intro r hr
              rcases List.mem_cons.mp hr with h | h
              · subst h; exact hdep
              · exact hst.2 r h
            · exact hst1
          by_cases hd : depth < maxDepth
          · rw [if_pos hd]
            refine foldl_preserve (crawl_inv maxDepth maxPages) _ ?_ _ _ hst2
            intro s link hs
            by_cases hc : s.visited.length < maxPages
            · rw [if_pos hc]; exact ih link (depth + 1) s hs
            · rw [if_neg hc]; exact hs
          · rw [if_neg hd]; exact hst2

/-- C4: for every crawl invocation — any web behaviour, any seed list, any
keyword list, `maxDepth ≥ 0`, `maxPages ≥ 1` — at every point of the crawl
(every recursive call from an invariant-respecting state) and in the final
state, the visited set holds at most `maxPages` URLs and every stored
`PageRecord` has depth at most `maxDepth`. -/
theorem crawler_respects_bounds (web : List Char → Option FetchedPage)
    (maxDepth maxPages : Nat) (keywords : List (List Char))
    (urls : List (List Char)) (_hmp : 1 ≤ maxPages) :
    (∀ (fuel : Nat) (url : List Char) (depth : Nat) (st : CrawlState),
       st.visited.length ≤ maxPages →
       (∀ r ∈ st.results, r.2.depth ≤ maxDepth) →
       (crawl_recursive web maxDepth maxPages keywords fuel url depth st).visited.length
           ≤ maxPages
       ∧ ∀ r ∈ (crawl_recursive web maxDepth maxPages keywords fuel url depth st).results,
           r.2.depth ≤ maxDepth)
    ∧ (crawler_execute web maxDepth maxPages keywords urls).visited.length ≤ maxPages
    ∧ ∀ r ∈ (crawler_execute web maxDepth maxPages keywords urls).results,
        r.2.depth ≤ maxDepth := by
  have hstep := crawl_recursive_inv web maxDepth maxPages keywords
  constructor
  · intro fuel url depth st h1 h2
    exact hstep fuel url depth st ⟨h1, h2⟩
  · have hinit : crawl_inv maxDepth maxPages ⟨[], []⟩ := by
      constructor
      · simp
      · intro r hr; simp at hr
    have := foldl_preserve (crawl_inv maxDepth maxPages)
      (fun st url => crawl_recursive web maxDepth maxPages keywords (maxDepth + 1) url 0 st)
      (fun s a hs => hstep (maxDepth + 1) a 0 s hs) urls ⟨[], []⟩ hinit
    exact this

/-- C4 witness: a concrete crawl with `maxPages = 1`. -/
theorem crawler_respects_bounds_witness :
    1 ≤ 1
    ∧ ((∀ (fuel : Nat) (url : List Char) (depth : Nat) (st : CrawlState),
          st.visited.length ≤ 1 →
          (∀ r ∈ st.results, r.2.depth ≤ 0) →
          (crawl_recursive (fun _ => none) 0 1 [] fuel url depth st).visited.length ≤ 1
          ∧ ∀ r ∈ (crawl_recursive (fun _ => none) 0 1 [] fuel url depth st).results,
              r.2.depth ≤ 0)
       ∧ (crawler_execute (fun _ => none) 0 1 [] ["https://a".toList]).visited.length ≤ 1
       ∧ ∀ r ∈ (crawler_execute (fun _ => none) 0 1 [] ["https://a".toList]).results,
           r.2.depth ≤ 0) :=
  ⟨by decide,
   crawler_respects_bounds (fun _ => none) 0 1 [] ["https://a".toList] (by decide)⟩

/-! ### C6: the lexical scorer's formula and bounds -/

/-- The match-count / weighted-score fold of the lexical scorer computes the
count of matching tokens and the sum of the per-token term-frequency
contributions. -/
lemma sim_fold_eq (text : List Char) (n : ℚ) :
    ∀ (tokens : List (List Char)) (p0 : Nat × ℚ),
      tokens.foldl
        (fun (p : Nat × ℚ) kw =>
          let c := pyCount text kw
          if 0 < c then (p.1 + 1, p.2 + ((c : ℚ) / n) * 100) else p) p0
      = (p0.1 + tokens.countP (fun kw => decide (0 < pyCount text kw)),
         p0.2 + (tokens.map (fun kw => ((pyCount text kw : ℚ) / n) * 100)).sum) := by
  intro tokens
  induction tokens with
  | nil => intro p0; simp
  | cons kw t ih =>
    intro p0
    simp only [List.foldl_cons, List.countP_cons, List.map_cons, List.sum_cons]
    by_cases hc : 0 < pyCount text kw
    · simp only [if_pos hc, ih, Prod.mk.injEq]
      refine ⟨?_, by ring⟩
      simp only [decide_eq_true_eq, if_pos hc]
      omega
    · have h0 : pyCount text kw = 0 := by omega
      simp only [if_neg hc, ih, Prod.mk.injEq]
      refine ⟨?_, ?_⟩
      · simp only [decide_eq_true_eq, if_neg hc]
        omega
      · rw [h0]
        push_cast
        ring

/-- A non-empty query always yields a non-empty token list (every pair
contributes at least its own lowercased keyword). -/
lemma build_query_tokens_ne_nil (query_keywords : List (List Char × List Char))
    (h : query_keywords ≠ []) : build_query_tokens query_keywords ≠ [] := by
  unfold build_query_tokens
  rw [foldl_append_map, ne_eq, List.dedup_eq_nil]
  cases query_keywords with
  | nil => exact absurd rfl h
  | cons q t => simp [List.flatMap_cons]

/-- Closed form of the per-page lexical score: coverage times `0.6` plus the
clamped weighted sum times `0.4`. -/
lemma sim_score_tokens_eq (tokens : List (List Char)) (title content : List Char) :
    sim_score_tokens tokens title content
      = if tokens = [] then 0
        else
          ((tokens.countP
              (fun kw => decide (0 < pyCount (pageText title content) kw)) : ℚ)
            / (tokens.length : ℚ)) * (6 / 10)
          + min ((tokens.map
              (fun kw => ((pyCount (pageText title content) kw : ℚ)
                / ((word_count_m (pageText title content) : Nat) : ℚ)) * 100)).sum) 1
            * (4 / 10) := by
  simp only [sim_score_tokens]
  rw [sim_fold_eq]
  simp [zero_add]

/-- C6: for every page and non-empty query keyword list, the lexical score
is `0.6 * coverage + 0.4 * min(weighted, 1)` where coverage is the fraction
of tokens occurring at least once in the page text and `weighted` sums the
per-token `(occurrences / wordCount(text)) * 100` contributions; the score
always lies in `[0, 1]`. -/
theorem scorer_formula_and_bounds (query_keywords : List (List Char × List Char))
    (title content : List Char) (h : query_keywords ≠ []) :
    sim_score_tokens (build_query_tokens query_keywords) title content
      = (6 / 10) * (((build_query_tokens query_keywords).countP
            (fun kw => decide (0 < pyCount (pageText title content) kw)) : ℚ)
          / ((build_query_tokens query_keywords).length : ℚ))
        + (4 / 10) * min (((build_query_tokens query_keywords).map
            (fun kw => ((pyCount (pageText title content) kw : ℚ)
              / ((word_count_m (pageText title content) : Nat) : ℚ)) * 100)).sum) 1
    ∧ 0 ≤ sim_score_tokens (build_query_tokens query_keywords) title content
    ∧ sim_score_tokens (build_query_tokens query_keywords) title content ≤ 1 := by
  have htok : build_query_tokens query_keywords ≠ [] := build_query_tokens_ne_nil _ h
  rw [sim_score_tokens_eq, if_neg htok]
  have hlen : 0 < (build_query_tokens query_keywords).length :=
    List.length_pos.mpr htok
  have hcov0 : (0 : ℚ) ≤ (((build_query_tokens query_keywords).countP
      (fun kw => decide (0 < pyCount (pageText title content) kw)) : ℚ)
      / ((build_query_tokens query_keywords).length : ℚ)) := by positivity
  have hcov1 : (((build_query_tokens query_keywords).countP
      (fun kw => decide (0 < pyCount (pageText title content) kw)) : ℚ)
      / ((build_query_tokens query_keywords).length : ℚ)) ≤ 1 := by
    rw [div_le_one (by exact_mod_cast hlen)]
    exact_mod_cast List.countP_le_length _
  have hw0 : (0 : ℚ) ≤ ((build_query_tokens query_keywords).map
      (fun kw => ((pyCount (pageText title content) kw : ℚ)
        / ((word_count_m (pageText title content) : Nat) : ℚ)) * 100)).sum := by
    refine List.sum_nonneg ?_
    intro x hx
    obtain ⟨kw, _, rfl⟩ := List.mem_map.mp hx
    positivity
  have hmin0 : (0 : ℚ) ≤ min (((build_query_tokens query_keywords).map
      (fun kw => ((pyCount (pageText title content) kw : ℚ)
        / ((word_count_m (pageText title content) : Nat) : ℚ)) * 100)).sum) 1 :=
    le_min hw0 zero_le_one
  have hmin1 : min (((build_query_tokens query_keywords).map
      (fun kw => ((pyCount (pageText title content) kw : ℚ)
        / ((word_count_m (pageText title content) : Nat) : ℚ)) * 100)).sum) 1 ≤ 1 :=
    min_le_right _ _
  refine ⟨by ring, ?_, ?_⟩
  · nlinarith
  · nlinarith

/-- C6 witness: the bounds at a concrete page and query. -/
theorem scorer_formula_and_bounds_witness :
    0 ≤ sim_score_tokens (build_query_tokens [("ai".toList, "ml".toList)])
          "t".toList "c".toList
    ∧ sim_score_tokens (build_query_tokens [("ai".toList, "ml".toList)])
          "t".toList "c".toList ≤ 1 :=
  ⟨(scorer_formula_and_bounds [("ai".toList, "ml".toList)] "t".toList "c".toList
      (by decide)).2.1,
   (scorer_formula_and_bounds [("ai".toList, "ml".toList)] "t".toList "c".toList
      (by decide)).2.2⟩

/-! ### C9: determinism of the lexical scorer -/

/-- The per-page lexical score does not depend on the iteration order of the
token list: permuting the tokens leaves the score unchanged. -/
lemma sim_score_tokens_perm {tokens1 tokens2 : List (List Char)}
    (h : tokens1.Perm tokens2) (title content : List Char) :
    sim_score_tokens tokens1 title content = sim_score_tokens tokens2 title content := by
  rw [sim_score_tokens_eq, sim_score_tokens_eq]
  by_cases h1 : tokens1 = []
  · have h2 : tokens2 = [] := by
      rw [← List.length_eq_zero, ← h.length_eq, List.length_eq_zero]
      exact h1
    rw [if_pos h1, if_pos h2]
  · have h2 : tokens2 ≠ [] := by
      intro e
      exact h1 (by rw [← List.length_eq_zero, h.length_eq, List.length_eq_zero]; exact e)
    rw [if_neg h1, if_neg h2, h.countP_eq, h.length_eq,
      List.Perm.sum_eq (h.map _)]

/-- C9: the lexical Scorer is deterministic: two runs over token lists that
are permutations of each other (the `set()`-induced iteration orders)
produce identical per-URL scores and an identical filtered output,
descending order included. -/
theorem scorer_deterministic (crawled : List (List Char × PageRecord))
    (threshold : ℚ) (tokens1 tokens2 : List (List Char))
    (hperm : tokens1.Perm tokens2) :
    score_all_with tokens1 crawled = score_all_with tokens2 crawled
    ∧ filter_by_similarity crawled (score_all_with tokens1 crawled) threshold
      = filter_by_similarity crawled (score_all_with tokens2 crawled) threshold := by
  have hs : score_all_with tokens1 crawled = score_all_with tokens2 crawled := by
    unfold score_all_with
    apply List.map_congr_left
    intro e _
    rw [sim_score_tokens_perm hperm]
  exact ⟨hs, by rw [hs]⟩

/-- C9 witness: two opposite iteration orders of a two-token set. -/
theorem scorer_deterministic_witness :
    score_all_with ["ai".toList, "ml".toList]
        [("u".toList, (⟨"t".toList, "c".toList, 1, 0⟩ : PageRecord))]
      = score_all_with ["ml".toList, "ai".toList]
        [("u".toList, (⟨"t".toList, "c".toList, 1, 0⟩ : PageRecord))]
    ∧ filter_by_similarity [("u".toList, (⟨"t".toList, "c".toList, 1, 0⟩ : PageRecord))]
        (score_all_with ["ai".toList, "ml".toList]
          [("u".toList, (⟨"t".toList, "c".toList, 1, 0⟩ : PageRecord))]) (3 / 10)
      = filter_by_similarity [("u".toList, (⟨"t".toList, "c".toList, 1, 0⟩ : PageRecord))]
        (score_all_with ["ml".toList, "ai".toList]
          [("u".toList, (⟨"t".toList, "c".toList, 1, 0⟩ : PageRecord))]) (3 / 10) :=
  scorer_deterministic [("u".toList, (⟨"t".toList, "c".toList, 1, 0⟩ : PageRecord))]
    (3 / 10) ["ai".toList, "ml".toList] ["ml".toList, "ai".toList] (by decide)

/-! ### C8: grouper keyword assignment -/

/-- Running maximum of the scores of a list, starting from `s0` (the shape
the best-keyword fold's second component takes). -/
def fold_max {α : Type} (f : α → ℚ) (s0 : ℚ) (l : List α) : ℚ :=
  l.foldl (fun m q => max m (f q)) s0

lemma fold_max_cons {α : Type} (f : α → ℚ) (s0 : ℚ) (q : α) (t : List α) :
    fold_max f s0 (q :: t) = fold_max f (max s0 (f q)) t := rfl

lemma fold_max_le_self {α : Type} (f : α → ℚ) :
    ∀ (l : List α) (s0 : ℚ), s0 ≤ fold_max f s0 l := by
  intro l
  induction l with
  | nil => intro s0; exact le_refl _
  | cons q t ih =>
    intro s0
    rw [fold_max_cons]
    exact le_trans (le_max_left _ _) (ih (max s0 (f q)))

/-- When the running maximum strictly exceeds its seed, it is attained by
some element of the list. -/
lemma fold_max_attained {α : Type} (f : α → ℚ) :
    ∀ (l : List α) (s0 : ℚ), s0 < fold_max f s0 l → ∃ x ∈ l, f x = fold_max f s0 l := by
  intro l
  induction l with
  | nil => intro s0 h; exact absurd h (lt_irrefl _)
  | cons q t ih =>
    intro s0 h
    rw [fold_max_cons] at h ⊢
    by_cases h2 : max s0 (f q) < fold_max f (max s0 (f q)) t
    · obtain ⟨x, hx, hfx⟩ := ih (max s0 (f q)) h2
      exact ⟨x, List.mem_cons_of_mem _ hx, hfx⟩
    · have heq : fold_max f (max s0 (f q)) t = max s0 (f q) :=
        le_antisymm (not_lt.mp h2) (fold_max_le_self f t _)
      rw [heq] at h ⊢
      rcases max_cases s0 (f q) with ⟨he, _⟩ | ⟨he, _⟩
      · rw [he] at h; exact absurd h (lt_irrefl _)
      · exact ⟨q, List.mem_cons_self _ _, he.symm⟩

/-- The second component of the best-keyword fold is the running maximum. -/
lemma best_fold_snd {α : Type} (key : α → List Char) (f : α → ℚ) :
    ∀ (l : List α) (b0 : Option (List Char)) (s0 : ℚ),
      (l.foldl (fun p q => if p.2 < f q then (some (key q), f q) else p) (b0, s0)).2
        = fold_max f s0 l := by
  intro l
  induction l with
  | nil => intro b0 s0; rfl
  | cons q t ih =>
    intro b0 s0
    simp only [List.foldl_cons, fold_max_cons]
    by_cases hq : s0 < f q
    · rw [if_pos hq, ih, max_eq_right hq.le]
    · rw [if_neg hq, ih, max_eq_left (not_lt.mp hq)]

/-- The first component of the best-keyword fold: if some element strictly
beats the seed score, the winner is the first element attaining the running
maximum; otherwise the seed value survives. -/
lemma best_fold_fst {α : Type} (key : α → List Char) (f : α → ℚ) :
    ∀ (l : List α) (b0 : Option (List Char)) (s0 : ℚ),
      (l.foldl (fun p q => if p.2 < f q then (some (key q), f q) else p) (b0, s0)).1
        = if s0 < fold_max f s0 l then
            match l.find? (fun q => decide (f q = fold_max f s0 l)) with
            | some q => some (key q)
            | none => b0
          else b0 := by
  intro l
  induction l with
  | nil =>
    intro b0 s0
    have : ¬ s0 < fold_max f s0 [] := lt_irrefl _
    rw [if_neg this]
    rfl
  | cons q t ih =>
    intro b0 s0
    simp only [List.foldl_cons, fold_max_cons, List.find?_cons]
    by_cases hq : s0 < f q
    · rw [if_pos hq, ih]
      simp only [max_eq_right hq.le]
      have hle : f q ≤ fold_max f (f q) t := fold_max_le_self f t (f q)
      have hcond : s0 < fold_max f (f q) t := lt_of_lt_of_le hq hle
      rw [if_pos hcond]
      by_cases heq : f q = fold_max f (f q) t
      · rw [if_neg (by rw [← heq]; exact lt_irrefl _)]
        simp [decide_eq_true heq]
      · have hlt : f q < fold_max f (f q) t := lt_of_le_of_ne hle heq
        rw [if_pos hlt]
        simp only [decide_eq_false heq]
        obtain ⟨x, hx, hfx⟩ := fold_max_attained f t (f q) hlt
        have hsome : (t.find? (fun q2 => decide (f q2 = fold_max f (f q) t))).isSome := by
          rw [List.find?_isSome]
          exact ⟨x, hx, decide_eq_true hfx⟩
        cases hfind : t.find? (fun q2 => decide (f q2 = fold_max f (f q) t)) with
        | none => rw [hfind] at hsome; simp at hsome
        | some y => rfl
    · rw [if_neg hq, ih]
      simp only [max_eq_left (not_lt.mp hq)]
      by_cases hcond : s0 < fold_max f s0 t
      · rw [if_pos hcond, if_pos hcond]
        have hne : f q ≠ fold_max f s0 t := by
          intro e
          exact absurd hcond (by rw [← e]; exact not_lt.mpr (not_lt.mp hq))
        simp [decide_eq_false hne]
      · rw [if_neg hcond, if_neg hcond]

/-- Closed form of the grouper's per-keyword match score. -/
lemma group_keyword_score_eq (text keyword description : List Char) :
    group_keyword_score text keyword description
      = ((pyCount text (lowerL keyword) : Nat) : ℚ)
        + (1 / 2) * ((reWords 3 (lowerL description)).map
            (fun w => ((pyCount text w : Nat) : ℚ))).sum := by
  unfold group_keyword_score
  rw [foldl_add_map, List.sum_map_mul_right]
  ring

/-- C8: the grouper's match score for each keyword is
`count(keyword, text) + 0.5 * Σ count(word, text)` over the `\w{3,}` words
of the keyword's description, and the page is assigned to the first keyword
attaining the strictly highest score; when no keyword scores above zero the
page goes to the implicit unmatched bucket `"기타"`. -/
theorem grouper_best_keyword (title content : List Char)
    (query_keywords : List (List Char × List Char)) :
    (∀ q ∈ query_keywords,
       group_keyword_score (pageText title content) q.1 q.2
         = ((pyCount (pageText title content) (lowerL q.1) : Nat) : ℚ)
           + (1 / 2) * ((reWords 3 (lowerL q.2)).map
               (fun w => ((pyCount (pageText title content) w : Nat) : ℚ))).sum)
    ∧ assigned_keyword (pageText title content) query_keywords
        = (if 0 < fold_max
              (fun q => group_keyword_score (pageText title content) q.1 q.2)
              0 query_keywords
           then
             match query_keywords.find?
                 (fun q => decide (group_keyword_score (pageText title content) q.1 q.2
                   = fold_max
                       (fun q => group_keyword_score (pageText title content) q.1 q.2)
                       0 query_keywords)) with
             | some q => q.1
             | none => unmatched_key
           else unmatched_key) := by
  constructor
  · intro q _
    exact group_keyword_score_eq _ _ _
  · have hb := best_fold_fst (fun (q : List Char × List Char) => q.1)
      (fun q => group_keyword_score (pageText title content) q.1 q.2)
      query_keywords none 0
    simp only [] at hb
    unfold assigned_keyword best_keyword_of
    simp only [] at hb ⊢
    rw [hb]
    by_cases hc : 0 < fold_max
        (fun q => group_keyword_score (pageText title content) q.1 q.2) 0 query_keywords
    · rw [if_pos hc, if_pos hc]
      cases hfind : query_keywords.find?
          (fun q => decide (group_keyword_score (pageText title content) q.1 q.2
            = fold_max (fun q => group_keyword_score (pageText title content) q.1 q.2)
                0 query_keywords)) with
      | some q => rfl
      | none => rfl
    · rw [if_neg hc, if_neg hc]
      rfl

/-! ### C5: the grouper partitions the filtered set -/

/-- Adding an item to its bucket extends the flattened bucket contents by
exactly that item. -/
lemma bucket_add_flat (b : List (List Char × List GroupItem)) (k : List Char)
    (it : GroupItem) :
    ((bucket_add b k it).flatMap (fun bk => bk.2)).Perm
      ((b.flatMap fun bk => bk.2) ++ [it]) := by
  induction b with
  | nil => simp [bucket_add]
  | cons bk rest ih =>
    obtain ⟨k0, items⟩ := bk
    simp only [bucket_add]
    by_cases hk : k0 = k
    · rw [if_pos hk]
      simp only [List.flatMap_cons, List.append_assoc]
      exact List.Perm.append_left items List.perm_append_comm
    · rw [if_neg hk]
      simp only [List.flatMap_cons, List.append_assoc]
      exact List.Perm.append_left items ih

/-- The bucket-building fold distributes the processed entries, one item
each, over the buckets: flattening recovers them all. -/
lemma buckets_from_fold (keyf : FilteredEntry → List Char)
    (itemf : FilteredEntry → GroupItem) :
    ∀ (l : List FilteredEntry) (b0 : List (List Char × List GroupItem)),
      ((l.foldl (fun b e => bucket_add b (keyf e) (itemf e)) b0).flatMap
          (fun bk => bk.2)).Perm
        ((b0.flatMap fun bk => bk.2) ++ l.map itemf) := by
  intro l
  induction l with
  | nil => intro b0; simp
  | cons e t ih =>
    intro b0
    simp only [List.foldl_cons, List.map_cons]
    refine (ih _).trans ?_
    refine ((bucket_add_flat b0 (keyf e) (itemf e)).append_right _).trans ?_
    rw [List.append_assoc]
    exact List.Perm.refl _

/-- Permutations are preserved by flat maps. -/
lemma flatMap_perm {α β : Type} {l1 l2 : List α} (f : α → List β)
    (h : l1.Perm l2) : (l1.flatMap f).Perm (l2.flatMap f) := by
  rw [List.flatMap_def, List.flatMap_def]
  exact (h.map f).flatten

/-- Turning buckets into groups (sorting each bucket's items) permutes the
flattened contents only. -/
lemma groups_flat_perm (descf : List Char → List Char)
    (le : GroupItem → GroupItem → Bool) :
    ∀ (buckets : List (List Char × List GroupItem)),
      ((buckets.map (fun bk =>
          KeywordGroup.mk bk.1 (descf bk.1) (bk.2.mergeSort le)
            (bk.2.mergeSort le).length)).flatMap (fun g => g.items)).Perm
        (buckets.flatMap fun bk => bk.2) := by
  intro buckets
  induction buckets with
  | nil => simp
  | cons bk rest ih =>
    simp only [List.map_cons, List.flatMap_cons]
    exact (List.mergeSort_perm bk.2 le).append ih

/-- The flattened items of `group_content` are exactly the filtered entries
(as group items), up to order. -/
lemma group_content_flat_perm (filtered : List FilteredEntry)
    (query_keywords : List (List Char × List Char)) :
    ((group_content filtered query_keywords).flatMap (fun g => g.items)).Perm
      (filtered.map (fun e =>
        (⟨e.url, e.page.title, e.page.content, e.similarity_score⟩ : GroupItem))) := by
  unfold group_content
  simp only []
  refine (flatMap_perm _ (List.mergeSort_perm _ _)).trans ?_
  refine (groups_flat_perm (lookup_description query_keywords) _ _).trans ?_
  have h := buckets_from_fold
    (fun e => assigned_keyword (pageText e.page.title e.page.content) query_keywords)
    (fun e => (⟨e.url, e.page.title, e.page.content, e.similarity_score⟩ : GroupItem))
    filtered []
  simpa using h

/-- Every entry of the filtered output carries a similarity score at or
above the threshold. -/
lemma filter_by_similarity_mem_ge (crawled : List (List Char × PageRecord))
    (scores : List (List Char × ℚ)) (threshold : ℚ) :
    ∀ e ∈ filter_by_similarity crawled scores threshold,
      threshold ≤ e.similarity_score := by
  intro e he
  simp only [filter_by_similarity] at he
  rw [List.Perm.mem_iff (List.mergeSort_perm _ _)] at he
  obtain ⟨a, _, hsome⟩ := List.mem_filterMap.mp he
  by_cases h : threshold ≤ lookup_score scores a.1
  · rw [if_pos h] at hsome
    cases hsome
    exact h
  · rw [if_neg h] at hsome
    exact absurd hsome (by simp)

/-- C5: the grouper's output partitions the Scorer's filtered output — the
multiset of URLs across all groups' items equals the multiset of filtered
URLs (no loss, no duplication, each filtered page in exactly one group's
items), and every grouped item corresponds to a filtered entry whose
similarity score is at or above the threshold. -/
theorem grouper_partitions (crawled : List (List Char × PageRecord))
    (query_keywords : List (List Char × List Char)) (threshold : ℚ) :
    ((((group_content
          (filter_by_similarity crawled
            (calculate_keyword_similarity crawled query_keywords) threshold)
          query_keywords).flatMap (fun g => g.items)).map (fun it => it.url)).Perm
       ((filter_by_similarity crawled
          (calculate_keyword_similarity crawled query_keywords) threshold).map
         (fun e => e.url)))
    ∧ ∀ g ∈ group_content
          (filter_by_similarity crawled
            (calculate_keyword_similarity crawled query_keywords) threshold)
          query_keywords,
        ∀ it ∈ g.items,
          ∃ e ∈ filter_by_similarity crawled
              (calculate_keyword_similarity crawled query_keywords) threshold,
            e.url = it.url ∧ e.similarity_score = it.similarity_score
            ∧ threshold ≤ e.similarity_score := by
  have hflat := group_content_flat_perm
    (filter_by_similarity crawled
      (calculate_keyword_similarity crawled query_keywords) threshold)
    query_keywords
  constructor
  · have h := hflat.map (fun it => it.url)
    simpa [List.map_map, Function.comp] using h
  · intro g hg it hit
    have hmem : it ∈ (group_content
        (filter_by_similarity crawled
          (calculate_keyword_similarity crawled query_keywords) threshold)
        query_keywords).flatMap (fun g => g.items) :=
      List.mem_flatMap.mpr ⟨g, hg, hit⟩
    have hmem2 := hflat.mem_iff.mp hmem
    obtain ⟨e, he, heq⟩ := List.mem_map.mp hmem2
    refine ⟨e, he, ?_, ?_, ?_⟩
    · rw [← heq]
    · rw [← heq]
    · exact filter_by_similarity_mem_ge crawled _ threshold e he

/-- C5 witness: the partition property at a concrete crawl result and query. -/
theorem grouper_partitions_witness :
    ((((group_content
          (filter_by_similarity
            [("u".toList, (⟨"ai".toList, "ai text".toList, 1, 0⟩ : PageRecord))]
            (calculate_keyword_similarity
              [("u".toList, (⟨"ai".toList, "ai text".toList, 1, 0⟩ : PageRecord))]
              [("ai".toList, "ml".toList)]) 0)
          [("ai".toList, "ml".toList)]).flatMap (fun g => g.items)).map
        (fun it => it.url)).Perm
       ((filter_by_similarity
          [("u".toList, (⟨"ai".toList, "ai text".toList, 1, 0⟩ : PageRecord))]
          (calculate_keyword_similarity
            [("u".toList, (⟨"ai".toList, "ai text".toList, 1, 0⟩ : PageRecord))]
            [("ai".toList, "ml".toList)]) 0).map (fun e => e.url)))
    ∧ ∀ g ∈ group_content
          (filter_by_similarity
            [("u".toList, (⟨"ai".toList, "ai text".toList, 1, 0⟩ : PageRecord))]
            (calculate_keyword_similarity
              [("u".toList, (⟨"ai".toList, "ai text".toList, 1, 0⟩ : PageRecord))]
              [("ai".toList, "ml".toList)]) 0)
          [("ai".toList, "ml".toList)],
        ∀ it ∈ g.items,
          ∃ e ∈ filter_by_similarity
              [("u".toList, (⟨"ai".toList, "ai text".toList, 1, 0⟩ : PageRecord))]
              (calculate_keyword_similarity
                [("u".toList, (⟨"ai".toList, "ai text".toList, 1, 0⟩ : PageRecord))]
                [("ai".toList, "ml".toList)]) 0,
            e.url = it.url ∧ e.similarity_score = it.similarity_score
            ∧ (0 : ℚ) ≤ e.similarity_score :=
  grouper_partitions
    [("u".toList, (⟨"ai".toList, "ai text".toList, 1, 0⟩ : PageRecord))]
    [("ai".toList, "ml".toList)] 0

/-- C8 witness: the assignment characterization at a concrete page and query. -/
theorem grouper_best_keyword_witness :
    assigned_keyword (pageText "ai".toList "x".toList) [("ai".toList, "ml".toList)]
      = (if 0 < fold_max
            (fun q => group_keyword_score (pageText "ai".toList "x".toList) q.1 q.2)
            0 [("ai".toList, "ml".toList)]
         then
           match [("ai".toList, "ml".toList)].find?
               (fun q => decide (group_keyword_score (pageText "ai".toList "x".toList) q.1 q.2
                 = fold_max
                     (fun q => group_keyword_score (pageText "ai".toList "x".toList) q.1 q.2)
                     0 [("ai".toList, "ml".toList)])) with
           | some q => q.1
           | none => unmatched_key
         else unmatched_key) :=
  (grouper_best_keyword "ai".toList "x".toList [("ai".toList, "ml".toList)]).2
